import Mathlib

/-!
Shallow embedding of the GooglePlayTop acquisition/caching/scoring core
(`scraper.py`, `database.py`, `app.py`) and proofs about its behaviour.

Modelling conventions:
* time is measured in rational seconds (`ℚ`);
* Python dict-based app records become the `App` structure, with `Option`
  fields for keys that may be absent (`a.get(...)`);
* randomness (`random.shuffle`, `random.choice`, `random.uniform`) is
  modelled by passing the drawn value in as an argument;
* network calls become an `Env` of outcome functions;
* exceptions (`CancelledError`, `IPBlockedError`) become `Except Err`;
* cache writes (`save_apps` / `save_keywords`) are collected in a list of
  `CacheWrite` records instead of mutating a database.
-/

namespace GooglePlayTop

/-- A Google Play app record, as the dicts returned by `gps.search` /
`gps.app`.  `appId` is absent or empty for identity-less records;
`installs` is the raw install-count string; `realInstalls` is the derived
integer install count when the key is present; `score` is the rating;
`released` is the parsed release date (days since epoch), `none` when the
`released` string is missing, empty or unparseable by `strptime`. -/
structure App where
  appId : Option String
  installs : Option String
  realInstalls : Option Int
  score : Option ℚ
  released : Option Int
  deriving Repr, DecidableEq

/-- A keyword-popularity probe result, as built by `fetch_niche_keywords`:
`{"keyword": kw, "resultCount": len(results)}`. -/
structure KeywordStat where
  keyword : String
  resultCount : Nat
  deriving Repr, DecidableEq

/-- The exceptions a pipeline run can surface with: `CancelledError` or
`IPBlockedError` (`scraper.py` lines 189-202). -/
inductive Err where
  | cancelled
  | blocked
  deriving Repr, DecidableEq

-- ══════════════════════════════════════════════════════════════
-- Cache Store (`database.py`)
-- ══════════════════════════════════════════════════════════════

/-- Constant `CACHE_TTL_HOURS = 6` from `database.py`. -/
def CACHE_TTL_HOURS : ℚ := 6

/-- The TTL expressed in seconds: `timedelta(hours=CACHE_TTL_HOURS)`. -/
def CACHE_TTL_SECONDS : ℚ := CACHE_TTL_HOURS * 3600

/-- Embedding of `get_cached_apps` (`database.py` lines 109-126).  The
SQLite table is abstracted as a map from cache key to the newest stored
row (payload, fetched-at timestamp in seconds); `now` is
`datetime.utcnow()`.  The row is served unless
`now - fetched_at > timedelta(hours=CACHE_TTL_HOURS)`. -/
def get_cached_apps (store : String → Option (List App × ℚ)) (now : ℚ)
    (cache_key : String) : Option (List App) :=
  match store cache_key with
  | none => none
  | some (data, fetched_at) =>
    if now - fetched_at > CACHE_TTL_SECONDS then none else some data

/-- Embedding of `get_cached_keywords` (`database.py` lines 147-164),
identical to `get_cached_apps` but for the keyword cache. -/
def get_cached_keywords (store : String → Option (List KeywordStat × ℚ))
    (now : ℚ) (cache_key : String) : Option (List KeywordStat) :=
  match store cache_key with
  | none => none
  | some (data, fetched_at) =>
    if now - fetched_at > CACHE_TTL_SECONDS then none else some data

-- ══════════════════════════════════════════════════════════════
-- Endpoint Pool (`scraper.py` lines 102-122)
-- ══════════════════════════════════════════════════════════════

/-- Embedding of `_pick_proxy` (`scraper.py` lines 106-116).  The module
globals `_proxy_pool` and `_dead_proxies` are passed in; `random.choice`
is modelled by an arbitrary index `choice` reduced mod the candidate list
length.  Returns the picked proxy (`none` = direct connection) together
with the resulting dead set (cleared when all proxies were dead). -/
def _pick_proxy (pool dead : List String) (choice : Nat) :
    Option String × List String :=
  if hp : pool = [] then
    (none, dead)
  else
    let alive := pool.filter (fun p => !(dead.contains p))
    if ha : alive = [] then
      -- All dead — reset and try again
      (some (pool.get ⟨choice % pool.length,
        Nat.mod_lt _ (List.length_pos.mpr hp)⟩), [])
    else
      (some (alive.get ⟨choice % alive.length,
        Nat.mod_lt _ (List.length_pos.mpr ha)⟩), dead)

/-- Embedding of `_mark_proxy_dead` (`scraper.py` lines 118-122):
adds the proxy to the dead set. -/
def _mark_proxy_dead (proxy_url : String) (dead : List String) :
    List String :=
  if proxy_url ∈ dead then dead else dead ++ [proxy_url]

-- ══════════════════════════════════════════════════════════════
-- Rate Gate (`scraper.py` lines 221-297)
-- ══════════════════════════════════════════════════════════════

/-- Constant `MIN_DELAY = 10` from `scraper.py`. -/
def MIN_DELAY : ℚ := 10

/-- Constant `SESSION_COOLDOWN = 90` from `scraper.py`. -/
def SESSION_COOLDOWN : ℚ := 90

/-- Embedding of `_record_success` (`scraper.py` lines 281-283):
resets the consecutive-error counter. -/
def _record_success (_errors : Nat) : Nat := 0

/-- Embedding of `_record_error` (`scraper.py` lines 285-287):
increments the consecutive-error counter. -/
def _record_error (errors : Nat) : Nat := errors + 1

/-- The sequence of sleeps performed by one `_throttle` call
(`scraper.py` lines 245-279), given the drawn random values.
`elapsed` is `seconds_since_last_query()` (`none` when the query log is
empty); `jitter` is the `random.uniform(0, 3.0)` draw; `human_pause` is
the `random.uniform(1.0, 4.0)` draw; `reading_roll` is the outcome of
`random.random() < 0.12`; `reading_extra` is the `random.uniform(5.0,
10.0)` draw; `errors` is the shared `_consecutive_errors` counter. -/
def _throttle_sleeps (elapsed : Option ℚ) (jitter human_pause : ℚ)
    (reading_roll : Bool) (reading_extra : ℚ) (errors : Nat) : List ℚ :=
  (match elapsed with
   | some e => if e < MIN_DELAY then [MIN_DELAY - e + jitter] else [human_pause]
   | none => [human_pause])
  ++ (if reading_roll then [reading_extra] else [])
  ++ (if errors > 0 then [min ((2 : ℚ) ^ errors) 60] else [])

/-- Embedding of `_interruptible_sleep` (`scraper.py` lines 232-242) for
the case where a cancel event is supplied.  `tok time` tells whether the
cancel event is set at absolute time `time`; `t` is the current time and
`rem = end - t` the remaining sleep.  Returns whether the sleep was
cancelled (`CancelledError` raised at a check) together with the list of
individual `time.sleep` chunk durations actually performed. -/
def _interruptible_sleep (tok : ℚ → Bool) (t rem : ℚ) : Bool × List ℚ :=
  if h : rem ≤ 0 then (false, [])
  else if tok t then (true, [])
  else
    let c := min (1/2 : ℚ) rem
    let res := _interruptible_sleep tok (t + c) (rem - c)
    (res.1, c :: res.2)
termination_by (⌈(2 : ℚ) * rem⌉).toNat
decreasing_by
  simp only [not_le] at h
  have hc1 : (1 : ℤ) ≤ ⌈(2 : ℚ) * rem⌉ := Int.ceil_pos.mpr (by linarith)
  rcases le_or_lt rem (1/2 : ℚ) with hle | hlt
  · rw [min_eq_right hle, show (2 : ℚ) * (rem - rem) = 0 by ring, Int.ceil_zero]
    omega
  · rw [min_eq_left hlt.le, show (2 : ℚ) * (rem - 1/2) = 2 * rem - 1 by ring,
      Int.ceil_sub_one]
    omega

-- ══════════════════════════════════════════════════════════════
-- Install-count parsing, deduplication, enrichment
-- (`scraper.py` lines 335-369)
-- ══════════════════════════════════════════════════════════════

/-- Embedding of `_parse_installs` (`scraper.py` lines 335-341): strip
thousands separators and the trailing `+`, then read the integer (an
empty string yields 0).  A non-numeric remainder is mapped to 0 (Python
would raise `ValueError` there; no caller feeds such a string). -/
def _parse_installs (installs_str : String) : Int :=
  if installs_str = "" then 0
  else
    let cleaned := (((installs_str.replace "," "").replace "+" "")).trim
    if cleaned = "" then 0 else (cleaned.toInt?).getD 0

/-- Truthiness of the Python expression `a.get("appId")`: the id must be
present and non-empty. -/
def truthyId : Option String → Bool
  | none => false
  | some s => !(s == "")

/-- Loop of `deduplicate` (`scraper.py` lines 344-353), with the `seen`
set threaded as an accumulator. -/
def dedup_go (seen : List String) : List App → List App
  | [] => []
  | a :: rest =>
    match a.appId with
    | none => dedup_go seen rest
    | some aid =>
      if aid ≠ "" ∧ aid ∉ seen then a :: dedup_go (aid :: seen) rest
      else dedup_go seen rest

/-- Embedding of `deduplicate` (`scraper.py` lines 344-353): remove
duplicate apps (by `appId`) while preserving order. -/
def deduplicate (apps_list : List App) : List App := dedup_go [] apps_list

/-- The sequence of non-empty app ids of a list, in order (used to state
identity-level properties of `deduplicate`). -/
def truthy_ids (l : List App) : List String :=
  l.filterMap fun a =>
    match a.appId with
    | none => none
    | some s => if s = "" then none else some s

/-- Embedding of `enrich_apps` (`scraper.py` lines 356-369).  `details`
models `get_app_details` (`none` = lookup failed, in which case the
original listing record is kept); `cancel` is the state of the cancel
event (checked before every item). -/
def enrich_apps (details : String → Option App) (cancel : Bool) :
    List App → Except Err (List App)
  | [] => .ok []
  | a :: rest =>
    if cancel then .error .cancelled
    else
      match enrich_apps details cancel rest with
      | .error e => .error e
      | .ok es =>
        match a.appId with
        | none => .ok es
        | some aid =>
          if aid = "" then .ok es
          else
            match details aid with
            | some d => .ok (d :: es)
            | none => .ok (a :: es)

-- ══════════════════════════════════════════════════════════════
-- Acquisition Pipeline (`scraper.py` lines 300-332 and 527-631)
-- ══════════════════════════════════════════════════════════════

/-- Outcome of one `gps.search` call inside `search_top_apps`: either the
result list, or an exception whose `_check_blocked` classification is
recorded in `blocked`. -/
inductive SearchOutcome where
  | ok (results : List App)
  | err (blocked : Bool)
  deriving Repr, DecidableEq

/-- Outcome of one `gps.search` probe inside `fetch_niche_keywords`:
either the number of hits returned, or an exception classified by
`_check_blocked`. -/
inductive ProbeOutcome where
  | ok (n : Nat)
  | err (blocked : Bool)
  deriving Repr, DecidableEq

/-- One Cache Store write performed by a pipeline run (`save_apps` or
`save_keywords`). -/
inductive CacheWrite where
  | apps (cache_key : String) (data : List App)
  | keywords (cache_key : String) (data : List KeywordStat)
  deriving Repr, DecidableEq

/-- The external collaborators of one pipeline run: the cache contents at
probe time and the outcome of every network query. -/
structure Env where
  cachedApps : String → Option (List App)
  cachedKeywords : String → Option (List KeywordStat)
  search : String → SearchOutcome
  probe : String → ProbeOutcome

/-- Embedding of `search_top_apps` (`scraper.py` lines 300-315).
`cancel` is the state of the cancel event (`_throttle` checks it first);
`outcome` is what `gps.search` does; `errors` is the shared
consecutive-error counter, returned updated.  A non-blocked exception is
swallowed and yields `[]`; a blocked one surfaces as `IPBlockedError`;
both increment the error counter. -/
def search_top_apps (cancel : Bool) (outcome : SearchOutcome)
    (errors : Nat) : Except Err (List App) × Nat :=
  if cancel then (.error .cancelled, errors)
  else
    match outcome with
    | .ok results => (.ok results, _record_success errors)
    | .err true => (.error .blocked, _record_error errors)
    | .err false => (.ok [], _record_error errors)

/-- The query loop shared by `fetch_general_top` and `fetch_category_top`
(`scraper.py` lines 541-543 / 571-573): for each query, check the cancel
event, call `search_top_apps`, and extend the accumulated results. -/
def run_queries (env : Env) (cancel : Bool) :
    List String → Nat → Except Err (List App) × Nat
  | [], errors => (.ok [], errors)
  | q :: qs, errors =>
    if cancel then (.error .cancelled, errors)
    else
      match search_top_apps cancel (env.search q) errors with
      | (.error e, errors') => (.error e, errors')
      | (.ok results, errors') =>
        match run_queries env cancel qs errors' with
        | (.error e, errors'') => (.error e, errors'')
        | (.ok rest, errors'') => (.ok (results ++ rest), errors'')

/-- The accumulated raw result list a cancel-free, block-free run of the
query loop produces: the concatenation of each query's results (a failed
non-blocked search contributes `[]`). -/
def accumulated (env : Env) (queries : List String) : List App :=
  queries.foldr
    (fun q acc =>
      (match env.search q with
       | .ok results => results
       | .err _ => []) ++ acc)
    []

/-- Python key function `a.get("realInstalls", 0)` used for ranking. -/
def installs_key (a : App) : Int := a.realInstalls.getD 0

/-- The comparison passed to the stable sort: descending by derived
install count (`sort(key=..., reverse=True)`). -/
def installs_ge (a b : App) : Prop := installs_key b ≤ installs_key a

instance : DecidableRel installs_ge := fun a b =>
  inferInstanceAs (Decidable (installs_key b ≤ installs_key a))

/-- Derivation step of `fetch_general_top` / `fetch_category_top`
(`scraper.py` lines 547-549 / 577-579): when the `realInstalls` key is
absent, fill it from the raw `installs` string. -/
def derive_real_installs (a : App) : App :=
  match a.realInstalls with
  | some _ => a
  | none => { a with realInstalls := some (_parse_installs (a.installs.getD "0")) }

/-- Ranking tail shared by `fetch_general_top` and `fetch_category_top`
(`scraper.py` lines 545-551 / 575-581): deduplicate and truncate to
`count`, derive missing install counts, stable-sort by derived install
count descending, truncate to `count` again. -/
def rank_results (all_results : List App) (count : Nat) : List App :=
  let deduped := (deduplicate all_results).take count
  let derived := deduped.map derive_real_installs
  (derived.insertionSort installs_ge).take count

/-- Cache key built by `fetch_general_top`:
`f"general_top_{count}_{country}_{lang}"`. -/
def general_top_key (count : Nat) (country lang : String) : String :=
  "general_top_" ++ toString count ++ "_" ++ country ++ "_" ++ lang

/-- Cache key built by `fetch_category_top`:
`f"cat_{category_name}_{count}_{country}_{lang}"`. -/
def category_key (category_name : String) (count : Nat)
    (country lang : String) : String :=
  "cat_" ++ category_name ++ "_" ++ toString count ++ "_" ++ country ++ "_" ++ lang

/-- Cache key built by `fetch_niche_keywords`:
`f"niche_kw_{niche_name}_{country}_{lang}"`. -/
def niche_kw_key (niche_name country lang : String) : String :=
  "niche_kw_" ++ niche_name ++ "_" ++ country ++ "_" ++ lang

/-- Embedding of `fetch_general_top` (`scraper.py` lines 527-553).
`queries` is the shuffled copy of `GENERAL_QUERIES`; `cancel` the state
of the cancel event for the whole run.  Returns the result (or raised
exception), the Cache Store writes performed, and the final
consecutive-error counter. -/
def fetch_general_top (env : Env) (cancel : Bool) (queries : List String)
    (count : Nat) (country lang : String) (errors : Nat) :
    Except Err (List App) × List CacheWrite × Nat :=
  let cache_key := general_top_key count country lang
  match env.cachedApps cache_key with
  | some cached => (.ok cached, [], errors)
  | none =>
    -- `_enforce_session_cooldown` starts with `_check_cancelled`
    if cancel then (.error .cancelled, [], errors)
    else
      match run_queries env cancel queries errors with
      | (.error e, errors') => (.error e, [], errors')
      | (.ok all_results, errors') =>
        let result := rank_results all_results count
        (.ok result, [.apps cache_key result], errors')

/-- Embedding of `fetch_category_top` (`scraper.py` lines 556-583);
`queries` is the shuffled query list for the category. -/
def fetch_category_top (env : Env) (cancel : Bool) (category_name : String)
    (queries : List String) (count : Nat) (country lang : String)
    (errors : Nat) : Except Err (List App) × List CacheWrite × Nat :=
  let cache_key := category_key category_name count country lang
  match env.cachedApps cache_key with
  | some cached => (.ok cached, [], errors)
  | none =>
    if cancel then (.error .cancelled, [], errors)
    else
      match run_queries env cancel queries errors with
      | (.error e, errors') => (.error e, [], errors')
      | (.ok cat_results, errors') =>
        let result := rank_results cat_results count
        (.ok result, [.apps cache_key result], errors')

/-- Probe loop of `fetch_niche_keywords` (`scraper.py` lines 611-628):
for each keyword, check cancellation, throttle (which checks again), and
probe; a success appends the hit count, a non-blocked failure appends a
zero count, a blocked failure raises. -/
def probe_loop (env : Env) (cancel : Bool) :
    List String → Nat → Except Err (List KeywordStat) × Nat
  | [], errors => (.ok [], errors)
  | kw :: kws, errors =>
    if cancel then (.error .cancelled, errors)
    else
      match env.probe kw with
      | .ok n =>
        match probe_loop env cancel kws (_record_success errors) with
        | (.error e, errors') => (.error e, errors')
        | (.ok rest, errors') => (.ok (⟨kw, n⟩ :: rest), errors')
      | .err true => (.error .blocked, _record_error errors)
      | .err false =>
        match probe_loop env cancel kws (_record_error errors) with
        | (.error e, errors') => (.error e, errors')
        | (.ok rest, errors') => (.ok (⟨kw, 0⟩ :: rest), errors')

/-- The comparison for the keyword ranking
(`sort(key=lambda k: k["resultCount"], reverse=True)`). -/
def result_count_ge (a b : KeywordStat) : Prop := b.resultCount ≤ a.resultCount

instance : DecidableRel result_count_ge := fun a b =>
  inferInstanceAs (Decidable (b.resultCount ≤ a.resultCount))

/-- Embedding of `fetch_niche_keywords` (`scraper.py` lines 592-631).
`seeds` is the niche's seed list from `get_all_niche_seeds()` and
`shuffled_seeds` its shuffled copy. -/
def fetch_niche_keywords (env : Env) (cancel : Bool) (niche_name : String)
    (seeds shuffled_seeds : List String) (country lang : String)
    (errors : Nat) : Except Err (List KeywordStat) × List CacheWrite × Nat :=
  if seeds = [] then (.ok [], [], errors)
  else
    let cache_key := niche_kw_key niche_name country lang
    match env.cachedKeywords cache_key with
    | some cached => (.ok cached, [], errors)
    | none =>
      if cancel then (.error .cancelled, [], errors)
      else
        match probe_loop env cancel shuffled_seeds errors with
        | (.error e, errors') => (.error e, [], errors')
        | (.ok keyword_results, errors') =>
          let sorted := keyword_results.insertionSort result_count_ge
          (.ok sorted, [.keywords cache_key sorted], errors')

-- ══════════════════════════════════════════════════════════════
-- Cancellation Registry (`app.py` lines 48-68)
-- ══════════════════════════════════════════════════════════════

/-- State of the active-task registry.  Tokens (`threading.Event`
objects) are named by creation order; `active` is the `_active_tasks`
dict, `signalled` records which tokens have been `set()`, and `next_id`
names the next fresh token (every id at or above it is unused). -/
structure Registry where
  active : String → Option Nat
  signalled : Nat → Bool
  next_id : Nat

/-- Embedding of `_start_task` (`app.py` lines 52-61): create a new
cancel event, signal any previously registered one for the group, and
register the new one.  Returns the new token and the new state. -/
def _start_task (group_key : String) (s : Registry) : Nat × Registry :=
  let cancel_event := s.next_id
  let s1 :=
    match s.active group_key with
    | some old =>
      { s with signalled := fun x => if x = old then true else s.signalled x }
    | none => s
  (cancel_event,
   { s1 with
     active := fun k => if k = group_key then some cancel_event else s1.active k,
     next_id := s.next_id + 1 })

/-- Embedding of `_finish_task` (`app.py` lines 64-68): remove the
registry entry only if it still holds the token being finished. -/
def _finish_task (group_key : String) (cancel_event : Nat) (s : Registry) :
    Registry :=
  if s.active group_key = some cancel_event then
    { s with active := fun k => if k = group_key then none else s.active k }
  else s

-- ══════════════════════════════════════════════════════════════
-- Scoring Engine (`scraper.py` lines 634-728)
-- ══════════════════════════════════════════════════════════════

/-- Python `round` ties-to-even rounding of a rational to an integer. -/
def round_half_even (q : ℚ) : ℤ :=
  let f := ⌊q⌋
  let r := q - f
  if r < 1/2 then f
  else if 1/2 < r then f + 1
  else if f % 2 = 0 then f else f + 1

/-- Python `round(x, 1)`: round to one decimal place. -/
def pyround1 (q : ℚ) : ℚ := (round_half_even (10 * q) : ℚ) / 10

/-- Python expression `(a.get("score") or 5)` from the gap metric: a
missing or zero rating counts as 5. -/
def score_or5 (a : App) : ℚ :=
  match a.score with
  | some s => if s = 0 then 5 else s
  | none => 5

/-- Average keyword result count (`compute_niche_score` step 1):
`sum(k["resultCount"] for k in kw_data) / max(len(kw_data), 1)`. -/
def avg_results_of (kw_data : List KeywordStat) : ℚ :=
  ((kw_data.map (fun k => (k.resultCount : ℚ))).sum) / max (kw_data.length : ℚ) 1

/-- Denominator `total = max(len(apps), 1)` of `compute_niche_score`. -/
def niche_total (apps : List App) : ℚ := max (apps.length : ℚ) 1

/-- Saturation metric (`compute_niche_score` step 3): percentage of apps
with at least 10,000,000 derived installs. -/
def saturation_pct_of (apps : List App) : ℚ :=
  ((apps.countP (fun a => 10000000 ≤ a.realInstalls.getD 0) : ℚ) / niche_total apps) * 100

/-- Gap metric (`compute_niche_score` step 4): percentage of apps with
`(a.get("score") or 5) < 4.0`. -/
def gap_pct_of (apps : List App) : ℚ :=
  ((apps.countP (fun a => score_or5 a < 4) : ℚ) / niche_total apps) * 100

/-- Freshness metric (`compute_niche_score` step 5): percentage of apps
whose parsed release date is at or after `cutoff = utcnow - 365 days`
(apps with a missing or unparseable date are not counted). -/
def freshness_pct_of (apps : List App) (cutoff : Int) : ℚ :=
  ((apps.countP (fun a => (a.released.map (fun rd => decide (cutoff ≤ rd))).getD false) : ℚ) /
    niche_total apps) * 100

/-- Composite opportunity formula of `compute_niche_score` step 7
(`scraper.py` lines 712-716), as a function of the four statistics. -/
def nicheComposite (avg_results gap_pct freshness_pct saturation_pct : ℚ) : ℚ :=
  let demand_score := min (avg_results / 30 * 40) 40
  let gap_score := min (gap_pct / 100 * 25) 25
  let fresh_score := min (freshness_pct / 100 * 20) 20
  let sat_penalty := min (saturation_pct / 100 * 25) 25
  pyround1 (max (demand_score + gap_score + fresh_score + (25 - sat_penalty)) 0)

/-- The metric fields of the dict returned by `compute_niche_score`. -/
structure NicheScore where
  keywordCount : Nat
  avgResultsPerKeyword : ℚ
  appsAnalysed : Nat
  saturationPct : ℚ
  gapPct : ℚ
  freshnessPct : ℚ
  opportunityScore : ℚ
  deriving Repr, DecidableEq

/-- Scoring core of `compute_niche_score` (`scraper.py` lines 684-728),
as a function of the keyword statistics and sampled app set it has
acquired (steps 1-2 of the function do the acquisition and are covered
by the pipeline embeddings). -/
def compute_niche_score (kw_data : List KeywordStat) (apps : List App)
    (cutoff : Int) : NicheScore :=
  let avg_results := avg_results_of kw_data
  let saturation_pct := saturation_pct_of apps
  let gap_pct := gap_pct_of apps
  let freshness_pct := freshness_pct_of apps cutoff
  { keywordCount := kw_data.length
    avgResultsPerKeyword := pyround1 avg_results
    appsAnalysed := apps.length
    saturationPct := pyround1 saturation_pct
    gapPct := pyround1 gap_pct
    freshnessPct := pyround1 freshness_pct
    opportunityScore := nicheComposite avg_results gap_pct freshness_pct saturation_pct }

instance : IsTotal App installs_ge :=
  ⟨fun a b => le_total (installs_key b) (installs_key a)⟩

instance : IsTrans App installs_ge :=
  ⟨fun _ _ _ hab hbc => le_trans hbc hab⟩

instance : IsTotal KeywordStat result_count_ge :=
  ⟨fun a b => le_total b.resultCount a.resultCount⟩

instance : IsTrans KeywordStat result_count_ge :=
  ⟨fun _ _ _ hab hbc => le_trans hbc hab⟩

-- ══════════════════════════════════════════════════════════════
-- Theorems
-- ══════════════════════════════════════════════════════════════

/-- C2 counterexample: an app-cache entry written at time 0 is still a
hit when probed exactly at age TTL, contradicting the claim that a hit
requires age strictly less than TTL (miss at every time at or after
T0+TTL). -/
theorem claim_C2_counterexample :
    get_cached_apps (fun _ => some ([], 0)) CACHE_TTL_SECONDS "k" = some [] ∧
      get_cached_apps (fun _ => some ([], 0)) CACHE_TTL_SECONDS "k" ≠ none := by
  constructor <;>
    simp [get_cached_apps, CACHE_TTL_SECONDS, CACHE_TTL_HOURS]

/-- C2 (amended): for every cache key with a stored entry,
`get_cached_apps` (resp. `get_cached_keywords`) returns the payload iff
the entry's age is at most the TTL, and returns a miss iff the age is
strictly greater than the TTL. -/
theorem claim_C2 :
    (∀ (store : String → Option (List App × ℚ)) (now : ℚ) (key : String)
        (data : List App) (t0 : ℚ), store key = some (data, t0) →
      (get_cached_apps store now key = some data ↔ now - t0 ≤ CACHE_TTL_SECONDS) ∧
      (get_cached_apps store now key = none ↔ CACHE_TTL_SECONDS < now - t0)) ∧
    (∀ (store : String → Option (List KeywordStat × ℚ)) (now : ℚ) (key : String)
        (data : List KeywordStat) (t0 : ℚ), store key = some (data, t0) →
      (get_cached_keywords store now key = some data ↔ now - t0 ≤ CACHE_TTL_SECONDS) ∧
      (get_cached_keywords store now key = none ↔ CACHE_TTL_SECONDS < now - t0)) := by
  constructor
  · intro store now key data t0 h
    simp only [get_cached_apps, h]
    constructor
    · split_ifs with hgt
      · exact iff_of_false (by simp) (not_le.mpr hgt)
      · exact iff_of_true rfl (not_lt.mp hgt)
    · split_ifs with hgt
      · exact iff_of_true rfl hgt
      · exact iff_of_false (by simp) hgt
  · intro store now key data t0 h
    simp only [get_cached_keywords, h]
    constructor
    · split_ifs with hgt
      · exact iff_of_false (by simp) (not_le.mpr hgt)
      · exact iff_of_true rfl (not_lt.mp hgt)
    · split_ifs with hgt
      · exact iff_of_true rfl hgt
      · exact iff_of_false (by simp) hgt

/-- C2 witness: the amended freshness contract evaluated on a concrete
store holding one entry written at time 100, probed at age 3600. -/
theorem claim_C2_witness :
    ((fun k => if k = "g" then some (([] : List App), (100 : ℚ)) else none) "g"
        = some ([], 100)) ∧
    (get_cached_apps
        (fun k => if k = "g" then some (([] : List App), (100 : ℚ)) else none)
        3700 "g" = some [] ↔ (3700 : ℚ) - 100 ≤ CACHE_TTL_SECONDS) := by
  refine ⟨by simp, ?_⟩
  exact (claim_C2.1 (fun k => if k = "g" then some (([] : List App), (100 : ℚ)) else none)
    3700 "g" [] 100 (by simp)).1

/-- C5: a pipeline run (`fetch_general_top`, `fetch_category_top`,
`fetch_niche_keywords`) whose cancel token is already set when it heads
for its query loop — i.e. it misses the cache, and for the keyword run
its niche has a non-empty seed list — terminates by raising
`CancelledError` and performs no Cache Store write for its key. -/
theorem claim_C5 :
    (∀ (env : Env) (queries : List String) (count : Nat)
        (country lang : String) (errors : Nat),
      env.cachedApps (general_top_key count country lang) = none →
      fetch_general_top env true queries count country lang errors
        = (.error .cancelled, [], errors)) ∧
    (∀ (env : Env) (category_name : String) (queries : List String)
        (count : Nat) (country lang : String) (errors : Nat),
      env.cachedApps (category_key category_name count country lang) = none →
      fetch_category_top env true category_name queries count country lang errors
        = (.error .cancelled, [], errors)) ∧
    (∀ (env : Env) (niche_name : String) (seeds shuffled_seeds : List String)
        (country lang : String) (errors : Nat),
      seeds ≠ [] →
      env.cachedKeywords (niche_kw_key niche_name country lang) = none →
      fetch_niche_keywords env true niche_name seeds shuffled_seeds country lang errors
        = (.error .cancelled, [], errors)) := by
  refine ⟨fun env queries count country lang errors h => ?_,
    fun env category_name queries count country lang errors h => ?_,
    fun env niche_name seeds shuffled_seeds country lang errors hs h => ?_⟩
  · simp [fetch_general_top, h]
  · simp [fetch_category_top, h]
  · simp [fetch_niche_keywords, hs, h]

/-- C5 witness: with an empty cache, a set token, and the "Anime" niche's
non-empty seed list, all three runs raise `CancelledError` and write
nothing. -/
theorem claim_C5_witness :
    (Env.mk (fun _ => none) (fun _ => none) (fun _ => .ok []) (fun _ => .ok 0)).cachedKeywords
        (niche_kw_key "Anime" "us" "en") = none ∧
    (["anime"] : List String) ≠ [] ∧
    fetch_niche_keywords
        (Env.mk (fun _ => none) (fun _ => none) (fun _ => .ok []) (fun _ => .ok 0))
        true "Anime" ["anime"] ["anime"] "us" "en" 0
      = (.error .cancelled, [], 0) := by
  refine ⟨rfl, by simp, ?_⟩
  exact claim_C5.2.2 (Env.mk (fun _ => none) (fun _ => none) (fun _ => .ok []) (fun _ => .ok 0))
    "Anime" ["anime"] ["anime"] "us" "en" 0 (by simp) rfl

/-- C6: `_start_task` registers the fresh token for the group, signals
the previously active token when one exists, and leaves other groups
untouched; `_finish_task` removes the registry entry when the passed
token is still the active one and is a no-op otherwise — in particular a
stale token finishing after a supersession does not erase the newer
task's registration. -/
theorem claim_C6 :
    (∀ (s : Registry) (g : String),
      (_start_task g s).2.active g = some (_start_task g s).1 ∧
      (∀ old, s.active g = some old → (_start_task g s).2.signalled old = true) ∧
      (∀ k, k ≠ g → (_start_task g s).2.active k = s.active k)) ∧
    (∀ (s : Registry) (g : String) (tok : Nat),
      (s.active g ≠ some tok → _finish_task g tok s = s) ∧
      (s.active g = some tok → (_finish_task g tok s).active g = none)) ∧
    (∀ (s : Registry) (g : String) (old : Nat),
      s.active g = some old →
      (∀ g' t', s.active g' = some t' → t' < s.next_id) →
      (_finish_task g old (_start_task g s).2).active g = some (_start_task g s).1) := by
  refine ⟨fun s g => ⟨?_, fun old hold => ?_, fun k hk => ?_⟩,
    fun s g tok => ⟨fun hne => ?_, fun heq => ?_⟩,
    fun s g old hold hfresh => ?_⟩
  · cases h : s.active g <;> simp [_start_task, h]
  · simp [_start_task, hold]
  · cases h : s.active g <;> simp [_start_task, h, hk]
  · simp [_finish_task, hne]
  · simp [_finish_task, heq]
  · have hlt : old < s.next_id := hfresh g old hold
    have hact : (_start_task g s).2.active g = some s.next_id := by
      simp [_start_task, hold]
    have hne : (_start_task g s).2.active g ≠ some old := by
      rw [hact]
      simp only [ne_eq, Option.some.injEq]
      omega
    have ht : (_start_task g s).1 = s.next_id := by simp [_start_task]
    simp only [_finish_task, if_neg hne]
    rw [hact, ht]

/-- C6 witness: starting over an existing registration for group "top"
signals the old token, and a stale finish with the old token leaves the
new token registered. -/
theorem claim_C6_witness :
    (Registry.mk (fun g => if g = "top" then some 0 else none) (fun _ => false) 1).active
        "top" = some 0 ∧
    (_finish_task "top" 0
        (_start_task "top"
          (Registry.mk (fun g => if g = "top" then some 0 else none) (fun _ => false) 1)).2).active
        "top"
      = some (_start_task "top"
          (Registry.mk (fun g => if g = "top" then some 0 else none) (fun _ => false) 1)).1 := by
  refine ⟨by simp, ?_⟩
  exact claim_C6.2.2
    (Registry.mk (fun g => if g = "top" then some 0 else none) (fun _ => false) 1)
    "top" 0 (by simp)
    (by
      intro g' t' h
      by_cases hg : g' = "top"
      · subst hg
        simp at h
        show t' < 1
        omega
      · simp [hg] at h)

/-- C7: `_pick_proxy` returns the direct sentinel `none` exactly when no
endpoints are configured; with a non-empty pool it always returns some
configured endpoint, that endpoint avoids the dead set whenever a live
endpoint exists, and when every configured endpoint is dead the dead set
is cleared and the pick is made from the full pool. -/
theorem pick_proxy_eq_of_no_alive (pool dead : List String) (choice : Nat)
    (hp : pool ≠ []) (ha : pool.filter (fun p => !(dead.contains p)) = []) :
    _pick_proxy pool dead choice =
      (some (pool.get ⟨choice % pool.length,
        Nat.mod_lt _ (List.length_pos.mpr hp)⟩), []) := by
  unfold _pick_proxy
  rw [dif_neg hp]
  exact dif_pos ha

theorem pick_proxy_eq_of_alive (pool dead : List String) (choice : Nat)
    (hp : pool ≠ []) (ha : pool.filter (fun p => !(dead.contains p)) ≠ []) :
    _pick_proxy pool dead choice =
      (some ((pool.filter (fun p => !(dead.contains p))).get
        ⟨choice % (pool.filter (fun p => !(dead.contains p))).length,
          Nat.mod_lt _ (List.length_pos.mpr ha)⟩), dead) := by
  unfold _pick_proxy
  rw [dif_neg hp]
  exact dif_neg ha

theorem claim_C7 :
    ∀ (pool dead : List String) (choice : Nat),
      (pool = [] → _pick_proxy pool dead choice = (none, dead)) ∧
      (pool ≠ [] → ∃ p, (_pick_proxy pool dead choice).1 = some p ∧ p ∈ pool) ∧
      (pool ≠ [] → (∃ q ∈ pool, q ∉ dead) →
        ∃ p, (_pick_proxy pool dead choice).1 = some p ∧ p ∉ dead ∧
          (_pick_proxy pool dead choice).2 = dead) ∧
      ((∀ q ∈ pool, q ∈ dead) → pool ≠ [] →
        (_pick_proxy pool dead choice).2 = [] ∧
          ∃ p, (_pick_proxy pool dead choice).1 = some p ∧ p ∈ pool) := by
  intro pool dead choice
  refine ⟨fun hp => by simp [_pick_proxy, hp], fun hp => ?_, fun hp hlive => ?_, fun hdead hp => ?_⟩
  · by_cases ha : pool.filter (fun p => !(dead.contains p)) = []
    · rw [pick_proxy_eq_of_no_alive pool dead choice hp ha]
      exact ⟨_, rfl, List.get_mem _ _ _⟩
    · rw [pick_proxy_eq_of_alive pool dead choice hp ha]
      have hmem := List.get_mem (pool.filter (fun p => !(dead.contains p)))
        (choice % (pool.filter (fun p => !(dead.contains p))).length)
        (Nat.mod_lt _ (List.length_pos.mpr ha))
      exact ⟨_, rfl, (List.mem_filter.mp hmem).1⟩
  · obtain ⟨q, hq, hqd⟩ := hlive
    have ha : pool.filter (fun p => !(dead.contains p)) ≠ [] := by
      intro hnil
      have hq' : q ∈ pool.filter (fun p => !(dead.contains p)) := by
        refine List.mem_filter.mpr ⟨hq, ?_⟩
        simpa using hqd
      rw [hnil] at hq'
      exact absurd hq' (List.not_mem_nil q)
    rw [pick_proxy_eq_of_alive pool dead choice hp ha]
    have hmem := List.get_mem (pool.filter (fun p => !(dead.contains p)))
      (choice % (pool.filter (fun p => !(dead.contains p))).length)
      (Nat.mod_lt _ (List.length_pos.mpr ha))
    refine ⟨_, rfl, ?_, rfl⟩
    have hnd := (List.mem_filter.mp hmem).2
    simpa using hnd
  · have ha : pool.filter (fun p => !(dead.contains p)) = [] := by
      rw [List.filter_eq_nil_iff]
      intro a hmem
      simpa using hdead a hmem
    rw [pick_proxy_eq_of_no_alive pool dead choice hp ha]
    exact ⟨rfl, _, rfl, List.get_mem _ _ _⟩

/-- C7 witness: with pool `["p1", "p2"]` and dead set `["p2"]`, a pick
returns a live endpoint and leaves the dead set unchanged; with both
endpoints dead, a pick clears the dead set and still returns an
endpoint. -/
theorem claim_C7_witness :
    (∃ p, (_pick_proxy ["p1", "p2"] ["p2"] 0).1 = some p ∧ p ∉ (["p2"] : List String) ∧
      (_pick_proxy ["p1", "p2"] ["p2"] 0).2 = ["p2"]) ∧
    ((_pick_proxy ["p1", "p2"] ["p1", "p2"] 1).2 = [] ∧
      ∃ p, (_pick_proxy ["p1", "p2"] ["p1", "p2"] 1).1 = some p ∧ p ∈ (["p1", "p2"] : List String)) := by
  constructor
  · exact (claim_C7 ["p1", "p2"] ["p2"] 0).2.2.1 (by simp) ⟨"p1", by simp, by simp⟩
  · exact (claim_C7 ["p1", "p2"] ["p1", "p2"] 1).2.2.2 (by intro q hq; simpa using hq) (by simp)

/-- C8: whenever the consecutive-error counter is positive, `_throttle`
performs exactly one extra sleep of `min(2^errors, 60)` appended after
its other sleeps; the counter resets to 0 on a successful request and
increments by one on a failed request, whether the failure is classified
Blocked or Transient. -/
theorem claim_C8 :
    (∀ (elapsed : Option ℚ) (jitter human_pause : ℚ) (reading_roll : Bool)
        (reading_extra : ℚ) (errors : Nat), 0 < errors →
      _throttle_sleeps elapsed jitter human_pause reading_roll reading_extra errors
        = _throttle_sleeps elapsed jitter human_pause reading_roll reading_extra 0
            ++ [min ((2 : ℚ) ^ errors) 60]) ∧
    (∀ errors, _record_success errors = 0) ∧
    (∀ errors, _record_error errors = errors + 1) ∧
    (∀ (results : List App) (errors : Nat),
      search_top_apps false (.ok results) errors = (.ok results, 0)) ∧
    (∀ (blocked : Bool) (errors : Nat),
      (search_top_apps false (.err blocked) errors).2 = errors + 1) := by
  refine ⟨fun elapsed jitter human_pause reading_roll reading_extra errors h => ?_,
    fun _ => rfl, fun _ => rfl, fun results errors => rfl, fun blocked errors => ?_⟩
  · simp [_throttle_sleeps, h, Nat.pos_iff_ne_zero.mp h]
  · cases blocked <;> rfl

/-- C8 witness: with an error streak of 3 the extra backoff sleep is
`min(2^3, 60) = 8`, appended after the ordinary pacing sleeps. -/
theorem claim_C8_witness :
    0 < 3 ∧
    _throttle_sleeps (some 4) 1 2 false 7 3
      = _throttle_sleeps (some 4) 1 2 false 7 0 ++ [min ((2 : ℚ) ^ 3) 60] :=
  ⟨by norm_num, claim_C8.1 (some 4) 1 2 false 7 3 (by norm_num)⟩

/-- C1 counterexample: on the claimed statistics (average 20 results per
keyword, 40% low-rated, 25% fresh, 10% saturated) the composite computed
by the `compute_niche_score` formula is 64.2, not the claimed 94.2: the
gap and freshness percentages contribute proportionally to their caps
(`pct/100 * cap`), they are not taken at face value. -/
theorem claim_C1_counterexample :
    nicheComposite 20 40 25 10 = 321 / 5 ∧ nicheComposite 20 40 25 10 ≠ 942 / 10 := by
  constructor <;> norm_num [nicheComposite, pyround1, round_half_even]

/-- C1 (amended): the composite opportunity score is the rounded value of
`min(avg/30*40,40) + min(gap/100*25,25) + min(fresh/100*20,20) +
(25 - min(sat/100*25,25))`; on the claimed statistics (avg 20, gap 40%,
fresh 25%, saturation 10%) this is `26.7 + 10 + 5 + 22.5`, i.e. 64.2 to
one decimal. -/
theorem claim_C1 :
    (∀ (kw_data : List KeywordStat) (apps : List App) (cutoff : Int),
      (compute_niche_score kw_data apps cutoff).opportunityScore
        = nicheComposite (avg_results_of kw_data) (gap_pct_of apps)
            (freshness_pct_of apps cutoff) (saturation_pct_of apps)) ∧
    nicheComposite 20 40 25 10
      = pyround1 (min ((20 : ℚ) / 30 * 40) 40 + min ((40 : ℚ) / 100 * 25) 25
          + min ((25 : ℚ) / 100 * 20) 20 + (25 - min ((10 : ℚ) / 100 * 25) 25)) ∧
    nicheComposite 20 40 25 10 = 321 / 5 := by
  refine ⟨fun kw_data apps cutoff => rfl, ?_, ?_⟩ <;>
    norm_num [nicheComposite, pyround1, round_half_even]

/-- Unfolding lemma for `_interruptible_sleep`: the wait is over. -/
theorem interruptible_sleep_eq_done (tok : ℚ → Bool) (t rem : ℚ) (h : rem ≤ 0) :
    _interruptible_sleep tok t rem = (false, []) := by
  rw [_interruptible_sleep, dif_pos h]

/-- Unfolding lemma for `_interruptible_sleep`: a check observes the
token set and the sleep raises `CancelledError`. -/
theorem interruptible_sleep_eq_cancelled (tok : ℚ → Bool) (t rem : ℚ)
    (h : ¬ rem ≤ 0) (htok : tok t = true) :
    _interruptible_sleep tok t rem = (true, []) := by
  rw [_interruptible_sleep, dif_neg h, if_pos htok]

/-- Unfolding lemma for `_interruptible_sleep`: the check passes and one
chunk of `min(0.5, end - now)` is slept. -/
theorem interruptible_sleep_eq_step (tok : ℚ → Bool) (t rem : ℚ)
    (h : ¬ rem ≤ 0) (htok : ¬ tok t = true) :
    _interruptible_sleep tok t rem =
      ((_interruptible_sleep tok (t + min (1/2 : ℚ) rem) (rem - min (1/2 : ℚ) rem)).1,
        min (1/2 : ℚ) rem ::
          (_interruptible_sleep tok (t + min (1/2 : ℚ) rem) (rem - min (1/2 : ℚ) rem)).2) := by
  rw [_interruptible_sleep, dif_neg h, if_neg htok]

/-- C9: for every requested duration and supplied token,
`_interruptible_sleep` sleeps at most 0.5 time units between consecutive
token checks (every chunk is at most 0.5), every check preceding a
performed chunk observed the token unset, and when the sleep raises
`CancelledError` the raising check observed the token set — so a
signalled token is noticed within 0.5 time units of the previous check,
independent of the total duration. -/
theorem claim_C9 (tok : ℚ → Bool) (t rem : ℚ) :
    (∀ c ∈ (_interruptible_sleep tok t rem).2, c ≤ 1/2) ∧
    (∀ i, i < (_interruptible_sleep tok t rem).2.length →
      tok (t + ((_interruptible_sleep tok t rem).2.take i).sum) = false) ∧
    ((_interruptible_sleep tok t rem).1 = true →
      tok (t + (_interruptible_sleep tok t rem).2.sum) = true) := by
  induction t, rem using _interruptible_sleep.induct tok with
  | case1 t rem h =>
    rw [interruptible_sleep_eq_done tok t rem h]
    simp
  | case2 t rem h htok =>
    rw [interruptible_sleep_eq_cancelled tok t rem h htok]
    simpa using htok
  | case3 t rem h htok c ih =>
    rw [interruptible_sleep_eq_step tok t rem h htok]
    have hc : c = min (1/2 : ℚ) rem := rfl
    rw [← hc] at *
    obtain ⟨ih1, ih2, ih3⟩ := ih
    refine ⟨?_, ?_, ?_⟩
    · intro x hx
      rcases List.mem_cons.mp hx with rfl | hx'
      · rw [hc]; exact min_le_left _ _
      · exact ih1 x hx'
    · intro i hi
      cases i with
      | zero =>
        simpa using Bool.not_eq_true _ ▸ htok
      | succ j =>
        simp only [List.take_succ_cons, List.sum_cons, List.length_cons] at hi ⊢
        rw [← add_assoc]
        exact ih2 j (by omega)
    · intro hcan
      simp only [List.sum_cons, ← add_assoc]
      exact ih3 hcan

/-- C9 witness: an uncancelled sleep of 1 time unit performs the chunks
`[0.5, 0.5]`, and the chunk bound of the claim applies to its first
chunk. -/
theorem claim_C9_witness :
    (1/2 : ℚ) ∈ (_interruptible_sleep (fun _ => false) 0 1).2 ∧ (1/2 : ℚ) ≤ 1/2 := by
  have h1 : _interruptible_sleep (fun _ => false) (1 : ℚ) 0 = (false, []) :=
    interruptible_sleep_eq_done _ _ _ le_rfl
  have h2 : _interruptible_sleep (fun _ => false) (1/2 : ℚ) (1/2) = (false, [1/2]) := by
    rw [interruptible_sleep_eq_step _ _ _ (by norm_num) (by simp)]
    norm_num [h1]
  have heval : _interruptible_sleep (fun _ => false) 0 1 = (false, [1/2, 1/2]) := by
    rw [interruptible_sleep_eq_step _ _ _ (by norm_num) (by simp)]
    norm_num [h2]
  refine ⟨by rw [heval]; simp, ?_⟩
  exact (claim_C9 (fun _ => false) 0 1).1 (1/2) (by rw [heval]; simp)

theorem truthy_ids_nil : truthy_ids [] = [] := rfl

theorem truthy_ids_cons_none {a : App} (h : a.appId = none) (l : List App) :
    truthy_ids (a :: l) = truthy_ids l := by
  simp [truthy_ids, List.filterMap_cons, h]

theorem truthy_ids_cons_empty {a : App} (h : a.appId = some "") (l : List App) :
    truthy_ids (a :: l) = truthy_ids l := by
  simp [truthy_ids, List.filterMap_cons, h]

theorem truthy_ids_cons_some {a : App} {aid : String} (h : a.appId = some aid)
    (hne : aid ≠ "") (l : List App) :
    truthy_ids (a :: l) = aid :: truthy_ids l := by
  simp [truthy_ids, List.filterMap_cons, h, hne]

theorem dedup_go_nil (seen : List String) : dedup_go seen [] = [] := rfl

theorem dedup_go_cons_none {a : App} (h : a.appId = none)
    (seen : List String) (l : List App) :
    dedup_go seen (a :: l) = dedup_go seen l := by
  simp [dedup_go, h]

theorem dedup_go_cons_kept {a : App} {aid : String} (h : a.appId = some aid)
    (hne : aid ≠ "") (seen : List String) (hnot : aid ∉ seen) (l : List App) :
    dedup_go seen (a :: l) = a :: dedup_go (aid :: seen) l := by
  simp only [dedup_go, h]
  rw [if_pos ⟨hne, hnot⟩]

theorem dedup_go_cons_skip {a : App} {aid : String} (h : a.appId = some aid)
    (seen : List String) (hcond : ¬(aid ≠ "" ∧ aid ∉ seen)) (l : List App) :
    dedup_go seen (a :: l) = dedup_go seen l := by
  simp only [dedup_go, h]
  rw [if_neg hcond]

/-- Every element kept by the deduplication loop carries a non-empty id
that was not in the `seen` accumulator. -/
theorem mem_dedup_go : ∀ (seen : List String) (l : List App) (b : App),
    b ∈ dedup_go seen l → ∃ aid, b.appId = some aid ∧ aid ≠ "" ∧ aid ∉ seen := by
  intro seen l
  induction l generalizing seen with
  | nil => intro b hb; simp [dedup_go_nil] at hb
  | cons a rest ih =>
    intro b hb
    cases ha : a.appId with
    | none =>
      rw [dedup_go_cons_none ha] at hb
      exact ih seen b hb
    | some aid =>
      by_cases hcond : aid ≠ "" ∧ aid ∉ seen
      · rw [dedup_go_cons_kept ha hcond.1 seen hcond.2] at hb
        rcases List.mem_cons.mp hb with rfl | hb'
        · exact ⟨aid, ha, hcond.1, hcond.2⟩
        · obtain ⟨aid', h1, h2, h3⟩ := ih (aid :: seen) b hb'
          exact ⟨aid', h1, h2, fun hmem => h3 (List.mem_cons_of_mem _ hmem)⟩
      · rw [dedup_go_cons_skip ha seen hcond] at hb
        exact ih seen b hb

/-- The ids surviving the deduplication loop are pairwise distinct and
none of them was already `seen`. -/
theorem truthy_ids_dedup_go : ∀ (seen : List String) (l : List App),
    (truthy_ids (dedup_go seen l)).Nodup ∧
      ∀ i ∈ truthy_ids (dedup_go seen l), i ∉ seen := by
  intro seen l
  induction l generalizing seen with
  | nil => simp [dedup_go_nil, truthy_ids_nil]
  | cons a rest ih =>
    cases ha : a.appId with
    | none =>
      rw [dedup_go_cons_none ha]
      exact ih seen
    | some aid =>
      by_cases hcond : aid ≠ "" ∧ aid ∉ seen
      · rw [dedup_go_cons_kept ha hcond.1 seen hcond.2,
          truthy_ids_cons_some ha hcond.1]
        obtain ⟨ihn, ihs⟩ := ih (aid :: seen)
        constructor
        · refine List.nodup_cons.mpr ⟨fun hmem => ?_, ihn⟩
          exact (ihs aid hmem) (List.mem_cons_self _ _)
        · intro i hi
          rcases List.mem_cons.mp hi with rfl | hi'
          · exact hcond.2
          · exact fun hmem => (ihs i hi') (List.mem_cons_of_mem _ hmem)
      · rw [dedup_go_cons_skip ha seen hcond]
        exact ih seen

/-- Every unseen non-empty id occurring in the input survives the
deduplication loop. -/
theorem dedup_go_complete : ∀ (seen : List String) (l : List App) (a : App)
    (aid : String), a ∈ l → a.appId = some aid → aid ≠ "" → aid ∉ seen →
    ∃ b ∈ dedup_go seen l, b.appId = some aid := by
  intro seen l
  induction l generalizing seen with
  | nil => intro a aid ha; simp at ha
  | cons x rest ih =>
    intro a aid hmem hid hne hns
    cases hx : x.appId with
    | none =>
      rw [dedup_go_cons_none hx]
      rcases List.mem_cons.mp hmem with rfl | hmem'
      · rw [hid] at hx; exact absurd hx (by simp)
      · exact ih seen a aid hmem' hid hne hns
    | some xid =>
      by_cases hcond : xid ≠ "" ∧ xid ∉ seen
      · rw [dedup_go_cons_kept hx hcond.1 seen hcond.2]
        rcases List.mem_cons.mp hmem with rfl | hmem'
        · exact ⟨a, List.mem_cons_self _ _, hid⟩
        · by_cases hxa : aid = xid
          · exact ⟨x, List.mem_cons_self _ _, by rw [hx, hxa]⟩
          · obtain ⟨b, hb, hbid⟩ := ih (xid :: seen) a aid hmem' hid hne
              (by simp [hxa, hns])
            exact ⟨b, List.mem_cons_of_mem _ hb, hbid⟩
      · rw [dedup_go_cons_skip hx seen hcond]
        push_neg at hcond
        rcases List.mem_cons.mp hmem with rfl | hmem'
        · rw [hid] at hx
          have hxa : xid = aid := by simpa using hx.symm
          subst hxa
          exact absurd (hcond hne) hns
        · exact ih seen a aid hmem' hid hne hns

/-- Every element kept by the deduplication loop is the first occurrence
of its id in the input list. -/
theorem dedup_go_find : ∀ (seen : List String) (l : List App) (b : App),
    b ∈ dedup_go seen l → l.find? (fun x => x.appId == b.appId) = some b := by
  intro seen l
  induction l generalizing seen with
  | nil => intro b hb; simp [dedup_go_nil] at hb
  | cons a rest ih =>
    intro b hb
    cases ha : a.appId with
    | none =>
      rw [dedup_go_cons_none ha] at hb
      obtain ⟨baid, hbid, hbne, hbns⟩ := mem_dedup_go seen rest b hb
      rw [List.find?_cons_of_neg _ (by simp [ha, hbid])]
      exact ih seen b hb
    | some aid =>
      by_cases hcond : aid ≠ "" ∧ aid ∉ seen
      · rw [dedup_go_cons_kept ha hcond.1 seen hcond.2] at hb
        rcases List.mem_cons.mp hb with rfl | hb'
        · exact List.find?_cons_of_pos _ (by simp)
        · obtain ⟨baid, hbid, hbne, hbns⟩ := mem_dedup_go (aid :: seen) rest b hb'
          have hne : aid ≠ baid := fun hcontra =>
            hbns (hcontra ▸ List.mem_cons_self _ _)
          rw [List.find?_cons_of_neg _ (by simp [ha, hbid, hne])]
          exact ih (aid :: seen) b hb'
      · rw [dedup_go_cons_skip ha seen hcond] at hb
        obtain ⟨baid, hbid, hbne, hbns⟩ := mem_dedup_go seen rest b hb
        push_neg at hcond
        have hne : aid ≠ baid := by
          intro hc
          subst hc
          exact hbns (hcond hbne)
        rw [List.find?_cons_of_neg _ (by simp [ha, hbid, hne])]
        exact ih seen b hb

/-- The ids surviving the deduplication loop appear in first-seen order:
relative positions in the output match relative first-occurrence
positions in the input. -/
theorem dedup_go_order : ∀ (seen : List String) (l : List App) (i j : String),
    j ∈ truthy_ids (dedup_go seen l) →
    (truthy_ids (dedup_go seen l)).indexOf i < (truthy_ids (dedup_go seen l)).indexOf j →
    (truthy_ids l).indexOf i < (truthy_ids l).indexOf j := by
  intro seen l
  induction l generalizing seen with
  | nil => intro i j hj; simp [dedup_go_nil, truthy_ids_nil] at hj
  | cons a rest ih =>
    intro i j hj hlt
    cases ha : a.appId with
    | none =>
      rw [dedup_go_cons_none ha] at hj hlt
      rw [truthy_ids_cons_none ha]
      exact ih seen i j hj hlt
    | some aid =>
      by_cases hcond : aid ≠ "" ∧ aid ∉ seen
      · rw [dedup_go_cons_kept ha hcond.1 seen hcond.2,
          truthy_ids_cons_some ha hcond.1] at hj hlt
        rw [truthy_ids_cons_some ha hcond.1]
        by_cases hja : j = aid
        · subst hja
          rw [List.indexOf_cons_self] at hlt
          exact absurd hlt (Nat.not_lt_zero _)
        · by_cases hia : i = aid
          · subst hia
            rw [List.indexOf_cons_self]
            rw [List.indexOf_cons_ne _ (fun hc => hja hc.symm)]
            exact Nat.succ_pos _
          · rw [List.indexOf_cons_ne _ (fun hc => hia hc.symm),
              List.indexOf_cons_ne _ (fun hc => hja hc.symm)] at hlt
            have hj' : j ∈ truthy_ids (dedup_go (aid :: seen) rest) := by
              rcases List.mem_cons.mp hj with rfl | h' <;> [exact absurd rfl hja; exact h']
            have := ih (aid :: seen) i j hj' (Nat.lt_of_succ_lt_succ hlt)
            rw [List.indexOf_cons_ne _ (fun hc => hia hc.symm),
              List.indexOf_cons_ne _ (fun hc => hja hc.symm)]
            exact Nat.succ_lt_succ this
      · rw [dedup_go_cons_skip ha seen hcond] at hj hlt
        push_neg at hcond
        by_cases haempty : aid = ""
        · rw [truthy_ids_cons_empty (haempty ▸ ha)]
          exact ih seen i j hj hlt
        · have hseen : aid ∈ seen := hcond haempty
          have hja : j ≠ aid := by
            intro hc
            exact ((truthy_ids_dedup_go seen rest).2 j hj) (hc ▸ hseen)
          have hiout : i ∈ truthy_ids (dedup_go seen rest) := by
            by_contra hno
            rw [← List.indexOf_eq_length] at hno
            have hjlt := List.indexOf_lt_length.mpr hj
            omega
          have hia : i ≠ aid := by
            intro hc
            exact ((truthy_ids_dedup_go seen rest).2 i hiout) (hc ▸ hseen)
          rw [truthy_ids_cons_some ha haempty,
            List.indexOf_cons_ne _ (fun hc => hia hc.symm),
            List.indexOf_cons_ne _ (fun hc => hja hc.symm)]
          exact Nat.succ_lt_succ (ih seen i j hj hlt)

/-- C4: `deduplicate` keeps each (present, non-empty) identity exactly
once — the surviving ids are pairwise distinct and every identity of the
input survives — the retained element for each identity is the first
occurrence of that identity in the input, and identities appear in
first-seen order (relative output positions match relative first-seen
positions in the input). -/
theorem claim_C4 (l : List App) :
    (truthy_ids (deduplicate l)).Nodup ∧
    (∀ a ∈ l, ∀ aid, a.appId = some aid → aid ≠ "" →
      ∃ b ∈ deduplicate l, b.appId = some aid) ∧
    (∀ b ∈ deduplicate l, l.find? (fun x => x.appId == b.appId) = some b) ∧
    (∀ i j, j ∈ truthy_ids (deduplicate l) →
      (truthy_ids (deduplicate l)).indexOf i < (truthy_ids (deduplicate l)).indexOf j →
      (truthy_ids l).indexOf i < (truthy_ids l).indexOf j) := by
  refine ⟨(truthy_ids_dedup_go [] l).1, ?_, ?_, ?_⟩
  · intro a ha aid hid hne
    exact dedup_go_complete [] l a aid ha hid hne (List.not_mem_nil aid)
  · intro b hb
    exact dedup_go_find [] l b hb
  · intro i j hj hlt
    exact dedup_go_order [] l i j hj hlt

/-- C4 witness: on a list whose first and third elements share the id
"x", the retained element for "x" is the first occurrence. -/
theorem claim_C4_witness :
    App.mk (some "x") none (some 1) none none
      ∈ deduplicate
          [App.mk (some "x") none (some 1) none none,
           App.mk (some "y") none (some 2) none none,
           App.mk (some "x") none (some 3) none none] ∧
    List.find?
        (fun x => x.appId == (App.mk (some "x") none (some 1) none none).appId)
        [App.mk (some "x") none (some 1) none none,
         App.mk (some "y") none (some 2) none none,
         App.mk (some "x") none (some 3) none none]
      = some (App.mk (some "x") none (some 1) none none) := by
  refine ⟨by decide, ?_⟩
  exact (claim_C4
    [App.mk (some "x") none (some 1) none none,
     App.mk (some "y") none (some 2) none none,
     App.mk (some "x") none (some 3) none none]).2.2.1
    (App.mk (some "x") none (some 1) none none) (by decide)

/-- Deriving the install count does not touch the identity. -/
theorem derive_real_installs_appId (a : App) :
    (derive_real_installs a).appId = a.appId := by
  cases h : a.realInstalls <;> simp [derive_real_installs, h]

/-- With no cancellation, `enrich_apps` returns exactly the
identity-bearing input items, each replaced by its detail record when
the lookup succeeds. -/
theorem enrich_apps_eq (details : String → Option App) (l : List App) :
    enrich_apps details false l
      = .ok ((l.filter (fun a => truthyId a.appId)).map
          (fun a => (details (a.appId.getD "")).getD a)) := by
  induction l with
  | nil => rfl
  | cons a rest ih =>
    cases ha : a.appId with
    | none => simp [enrich_apps, ih, truthyId, ha]
    | some aid =>
      by_cases hne : aid = ""
      · subst hne
        simp [enrich_apps, ih, truthyId, ha]
      · cases hd : details aid <;>
          simp [enrich_apps, ih, truthyId, ha, hne, hd]

/-- C10 (implicit): identity-less items are dropped — every element of
`deduplicate`'s output has a present non-empty `appId`; an element with
a missing or empty `appId` never survives; `enrich_apps` likewise skips
such items (its output is exactly the identity-bearing items, each
replaced by its detail record when the lookup succeeds); and every item
of the ranked pipeline output (hence of the cached payload) carries an
identity. -/
theorem claim_C10 (l : List App) (details : String → Option App) (count : Nat) :
    (∀ b ∈ deduplicate l, truthyId b.appId = true) ∧
    (∀ a ∈ l, truthyId a.appId = false → a ∉ deduplicate l) ∧
    (enrich_apps details false l
      = .ok ((l.filter (fun a => truthyId a.appId)).map
          (fun a => (details (a.appId.getD "")).getD a))) ∧
    (∀ b ∈ rank_results l count, truthyId b.appId = true) := by
  have htruthy : ∀ b ∈ deduplicate l, truthyId b.appId = true := by
    intro b hb
    obtain ⟨aid, hid, hne, _⟩ := mem_dedup_go [] l b hb
    simp [truthyId, hid, hne]
  refine ⟨htruthy, ?_, ?_, ?_⟩
  · intro a _ hfalse hmem
    rw [htruthy a hmem] at hfalse
    exact Bool.true_eq_false ▸ hfalse.symm ▸ rfl
  · exact enrich_apps_eq details l
  · intro b hb
    have hb1 : b ∈ (((deduplicate l).take count).map derive_real_installs).insertionSort
        installs_ge := List.take_subset _ _ hb
    have hb2 : b ∈ ((deduplicate l).take count).map derive_real_installs :=
      (List.perm_insertionSort installs_ge _).subset hb1
    obtain ⟨x, hx, rfl⟩ := List.mem_map.mp hb2
    have hxd : x ∈ deduplicate l := List.take_subset _ _ hx
    rw [derive_real_installs_appId]
    exact htruthy x hxd

/-- C10 witness: an id-less record is dropped by `deduplicate` while the
id-bearing record survives with its identity intact. -/
theorem claim_C10_witness :
    App.mk (some "x") none (some 1) none none
      ∈ deduplicate
          [App.mk none none (some 9) none none,
           App.mk (some "x") none (some 1) none none] ∧
    truthyId (App.mk (some "x") none (some 1) none none).appId = true := by
  refine ⟨by decide, ?_⟩
  exact (claim_C10
    [App.mk none none (some 9) none none,
     App.mk (some "x") none (some 1) none none]
    (fun _ => none) 0).1
    (App.mk (some "x") none (some 1) none none) (by decide)

/-- A cancel-free query loop in which no search is classified Blocked
returns the accumulated concatenation of all per-query results. -/
theorem run_queries_ok (env : Env) (queries : List String) :
    ∀ errors : Nat, (∀ q ∈ queries, env.search q ≠ .err true) →
      ∃ e', run_queries env false queries errors
        = (.ok (accumulated env queries), e') := by
  induction queries with
  | nil => intro errors _; exact ⟨errors, rfl⟩
  | cons q qs ih =>
    intro errors h
    have hqs : ∀ q' ∈ qs, env.search q' ≠ .err true :=
      fun q' hq' => h q' (List.mem_cons_of_mem _ hq')
    cases hs : env.search q with
    | ok results =>
      obtain ⟨e', he'⟩ := ih 0 hqs
      refine ⟨e', ?_⟩
      simp [run_queries, search_top_apps, _record_success, hs, he', accumulated]
    | err b =>
      cases b with
      | true => exact absurd hs (h q (List.mem_cons_self _ _))
      | false =>
        obtain ⟨e', he'⟩ := ih (_record_error errors) hqs
        refine ⟨e', ?_⟩
        simp [run_queries, search_top_apps, hs, he', accumulated]

/-- C3 counterexample: with one query returning items `a` (1 install)
then `b` (5 installs) and a requested count of 1, the pipeline returns
`[a]` — the first-seen deduplicated item — even though `b`, also among
the deduplicated results, has strictly more derived installs; so the
output is not the `count` items of highest derived install count among
all deduplicated accumulated results. -/
theorem claim_C3_counterexample :
    fetch_general_top
        (Env.mk (fun _ => none) (fun _ => none)
          (fun _ => .ok [App.mk (some "a") none (some 1) none none,
                         App.mk (some "b") none (some 5) none none])
          (fun _ => .ok 0))
        false ["q"] 1 "us" "en" 0
      = (.ok [App.mk (some "a") none (some 1) none none],
         [.apps (general_top_key 1 "us" "en")
           [App.mk (some "a") none (some 1) none none]], 0) ∧
    App.mk (some "b") none (some 5) none none
      ∈ deduplicate
          (accumulated
            (Env.mk (fun _ => none) (fun _ => none)
              (fun _ => .ok [App.mk (some "a") none (some 1) none none,
                             App.mk (some "b") none (some 5) none none])
              (fun _ => .ok 0))
            ["q"]) ∧
    installs_key (App.mk (some "a") none (some 1) none none)
      < installs_key (App.mk (some "b") none (some 5) none none) := by
  refine ⟨?_, by decide, by decide⟩
  rfl

/-- C3 (amended): on a cache miss with no Blocked search, the pipeline
deduplicates the accumulated results preserving first-seen order,
truncates to the requested count, derives missing install counts, and
stable-sorts that truncated list by derived install count descending —
so the returned and cached list is a permutation of the first `count`
deduplicated items (installs derived), in descending derived-install
order, but not necessarily the global top-`count` by installs. -/
theorem claim_C3 :
    (∀ (env : Env) (queries : List String) (count : Nat) (country lang : String)
        (errors : Nat),
      env.cachedApps (general_top_key count country lang) = none →
      (∀ q ∈ queries, env.search q ≠ .err true) →
      ∃ e', fetch_general_top env false queries count country lang errors
        = (.ok (rank_results (accumulated env queries) count),
           [.apps (general_top_key count country lang)
             (rank_results (accumulated env queries) count)], e')) ∧
    (∀ (env : Env) (category_name : String) (queries : List String) (count : Nat)
        (country lang : String) (errors : Nat),
      env.cachedApps (category_key category_name count country lang) = none →
      (∀ q ∈ queries, env.search q ≠ .err true) →
      ∃ e', fetch_category_top env false category_name queries count country lang errors
        = (.ok (rank_results (accumulated env queries) count),
           [.apps (category_key category_name count country lang)
             (rank_results (accumulated env queries) count)], e')) ∧
    (∀ (l : List App) (count : Nat),
      List.Perm (rank_results l count)
        (((deduplicate l).take count).map derive_real_installs)) ∧
    (∀ (l : List App) (count : Nat),
      List.Pairwise installs_ge (rank_results l count)) := by
  have hlen : ∀ (l : List App) (count : Nat),
      ((((deduplicate l).take count).map derive_real_installs).insertionSort
        installs_ge).length ≤ count := by
    intro l count
    rw [(List.perm_insertionSort installs_ge _).length_eq, List.length_map]
    exact List.length_take_le _ _
  have hrank : ∀ (l : List App) (count : Nat),
      rank_results l count
        = (((deduplicate l).take count).map derive_real_installs).insertionSort
            installs_ge := by
    intro l count
    exact List.take_of_length_le (hlen l count)
  refine ⟨?_, ?_, ?_, ?_⟩
  · intro env queries count country lang errors hmiss hnb
    obtain ⟨e', he'⟩ := run_queries_ok env queries errors hnb
    exact ⟨e', by simp [fetch_general_top, hmiss, he']⟩
  · intro env category_name queries count country lang errors hmiss hnb
    obtain ⟨e', he'⟩ := run_queries_ok env queries errors hnb
    exact ⟨e', by simp [fetch_category_top, hmiss, he']⟩
  · intro l count
    rw [hrank]
    exact List.perm_insertionSort installs_ge _
  · intro l count
    rw [hrank]
    exact List.sorted_insertionSort installs_ge _

/-- C3 witness: the amended pipeline contract evaluated on the concrete
two-item environment of the counterexample. -/
theorem claim_C3_witness :
    (Env.mk (fun _ => none) (fun _ => none)
        (fun _ => .ok [App.mk (some "a") none (some 1) none none,
                       App.mk (some "b") none (some 5) none none])
        (fun _ => .ok 0)).cachedApps (general_top_key 1 "us" "en") = none ∧
    (∀ q ∈ (["q"] : List String),
      (Env.mk (fun _ => none) (fun _ => none)
        (fun _ => .ok [App.mk (some "a") none (some 1) none none,
                       App.mk (some "b") none (some 5) none none])
        (fun _ => .ok 0)).search q ≠ .err true) ∧
    ∃ e', fetch_general_top
        (Env.mk (fun _ => none) (fun _ => none)
          (fun _ => .ok [App.mk (some "a") none (some 1) none none,
                         App.mk (some "b") none (some 5) none none])
          (fun _ => .ok 0))
        false ["q"] 1 "us" "en" 0
      = (.ok (rank_results
            (accumulated
              (Env.mk (fun _ => none) (fun _ => none)
                (fun _ => .ok [App.mk (some "a") none (some 1) none none,
                               App.mk (some "b") none (some 5) none none])
                (fun _ => .ok 0)) ["q"]) 1),
         [.apps (general_top_key 1 "us" "en")
           (rank_results
            (accumulated
              (Env.mk (fun _ => none) (fun _ => none)
                (fun _ => .ok [App.mk (some "a") none (some 1) none none,
                               App.mk (some "b") none (some 5) none none])
                (fun _ => .ok 0)) ["q"]) 1)], e') := by
  refine ⟨rfl, by intro q hq; simp, ?_⟩
  exact claim_C3.1
    (Env.mk (fun _ => none) (fun _ => none)
      (fun _ => .ok [App.mk (some "a") none (some 1) none none,
                     App.mk (some "b") none (some 5) none none])
      (fun _ => .ok 0))
    ["q"] 1 "us" "en" 0 rfl (by intro q hq; simp)

end GooglePlayTop
